import Mathlib

/-!
Verification of the openclaw followup-reply queue and the Slack pin/reaction
event handlers.

The followup queue (admission/dedup, destination grouping, collect merge,
overflow summarisation, debounced drain with retry) is modelled from the
specification, since only its test suite
(src/auto-reply/reply/queue.collect-routing.test.ts) ships in this tree.
The Slack event handlers are embedded directly from
src/slack/monitor/events/reactions.ts and src/slack/monitor/events/pins.ts.
-/

namespace OpenClaw

/-- Modelled from the spec: `originatingThreadId` is a string or a number. -/
inductive ThreadId where
  | str (s : String)
  | num (n : Int)
deriving DecidableEq, Repr

/-- Modelled from the spec (§3 FollowupRun): one unit of pending work.
The executor payload `run` is opaque to the queue and is modelled as an
uninterpreted `Nat` tag (`runPayload`). -/
structure FollowupRun where
  prompt : String
  messageId : Option String
  enqueuedAt : Nat
  originatingChannel : Option String
  originatingTo : Option String
  originatingAccountId : Option String
  originatingThreadId : Option ThreadId
  runPayload : Nat
deriving DecidableEq, Repr

/-- Modelled from the spec (§3 QueueSettings): queue mode. -/
inductive QueueMode where
  | collect
  | followup
deriving DecidableEq, Repr

/-- Modelled from the spec (§3 QueueSettings). `dropPolicy` has the single
value `summarize` and is omitted. -/
structure QueueSettings where
  mode : QueueMode
  debounceMs : Nat
  cap : Nat
deriving DecidableEq, Repr

/-- Modelled from the spec (§3 DedupeMode). -/
inductive DedupeMode where
  | messageId
  | prompt
deriving DecidableEq, Repr

/-- Modelled from the spec (§3 QueueState): one overflow-log entry, the
evicted run's prompt preview plus the eviction time. -/
structure OverflowEntry where
  preview : String
  droppedAt : Nat
deriving DecidableEq, Repr

/-- Modelled from the spec (§3 QueueState): per-key in-memory state. -/
structure QueueState where
  runs : List FollowupRun
  overflow : List OverflowEntry
deriving DecidableEq, Repr

/-- Modelled from the spec: a `messageId` counts as set only when it is a
non-empty string (TypeScript truthiness on an optional string field). -/
def midPresent (r : FollowupRun) : Option String :=
  match r.messageId with
  | some m => if m = "" then none else some m
  | none => none

/-- Modelled from the spec (§4.1 step 1): the duplicate check against the
runs currently resident for the key. -/
def isDuplicate (resident : List FollowupRun) (run : FollowupRun)
    (mode : DedupeMode) : Bool :=
  match midPresent run with
  | some m => resident.any (fun r => decide (midPresent r = some m))
  | none =>
    match mode with
    | .prompt =>
      resident.any (fun r =>
        decide (r.prompt = run.prompt) &&
        decide (r.originatingChannel = run.originatingChannel) &&
        decide (r.originatingTo = run.originatingTo))
    | .messageId => false

/-- Modelled from the spec (§4.1): `enqueueFollowupRun`.  Returns the
admission verdict together with the updated state; `now` is the clock value
recorded on an eviction.  The overflow preview of an evicted run is its
prompt (the spec fixes no truncation). -/
def enqueueFollowupRun (st : QueueState) (run : FollowupRun)
    (settings : QueueSettings) (mode : DedupeMode) (now : Nat) :
    Bool × QueueState :=
  if isDuplicate st.runs run mode then (false, st)
  else if st.runs.length < settings.cap then
    (true, { st with runs := st.runs ++ [run] })
  else
    match st.runs with
    | [] => (true, { st with runs := [run] })
    | old :: rest =>
      (true, { st with
                runs := rest ++ [run],
                overflow := st.overflow ++ [⟨old.prompt, now⟩] })

/-- Modelled from the spec (§4.3 step 1): two runs co-group iff
`originatingChannel`, `originatingTo`, and (only when the channel is
`"slack"`) `originatingThreadId` all match. -/
def sameGroup (a b : FollowupRun) : Prop :=
  a.originatingChannel = b.originatingChannel ∧
  a.originatingTo = b.originatingTo ∧
  (a.originatingChannel = some "slack" →
    a.originatingThreadId = b.originatingThreadId)

instance instDecidableSameGroup (a b : FollowupRun) :
    Decidable (sameGroup a b) := by
  unfold sameGroup
  infer_instance

/-- Modelled from the spec (§4.3 step 1): place a run into the first
destination group whose head co-groups with it, else open a new group at
the end (groups therefore appear in earliest-member enqueue order). -/
def insertRun : List (List FollowupRun) → FollowupRun →
    List (List FollowupRun)
  | [], r => [[r]]
  | [] :: gs, r => [] :: insertRun gs r
  | (h :: t) :: gs, r =>
    if sameGroup h r then (h :: (t ++ [r])) :: gs
    else (h :: t) :: insertRun gs r

/-- Modelled from the spec (§4.3 step 1): the destination-group partition
of the resident runs, in enqueue order. -/
def groupRuns (runs : List FollowupRun) : List (List FollowupRun) :=
  runs.foldl insertRun []

/-- Modelled from the spec (§4.3 step 3): the numbered lines of a merged
collect prompt, starting at index `i`. -/
def queuedLines : Nat → List FollowupRun → String
  | _, [] => ""
  | i, r :: rs =>
    "\nQueued #" ++ toString i ++ "\n" ++ r.prompt ++ queuedLines (i + 1) rs

/-- Modelled from the spec (§4.3 step 3): the synthetic prompt of a merged
multi-member group, enumerated in enqueue order, 1-indexed. -/
def mergedPrompt (g : List FollowupRun) : String :=
  "[Queued messages while agent was busy]" ++ queuedLines 1 g

/-- Modelled from the spec (§4.3 steps 2-3): the derived run a destination
group delivers.  A singleton delivers its run unmodified; a multi-member
group delivers one synthetic run with the merged prompt, inheriting the
remaining fields from its earliest member. -/
def buildUnitRun : List FollowupRun → Option FollowupRun
  | [] => none
  | [r] => some r
  | a :: b :: t => some { a with prompt := mergedPrompt (a :: b :: t) }

/-- Modelled from the spec (§4.3-4.4): one delivery unit — the derived run
handed to the executor, the resident member runs it consumes on success,
and whether it carries (and on success clears) the overflow log. -/
structure DeliveryUnit where
  run : FollowupRun
  members : List FollowupRun
  takesOverflow : Bool
deriving DecidableEq, Repr

/-- Modelled from the spec (§4.3 steps 2-3): the delivery units of a drain
pass before overflow attachment.  `followup` mode delivers each resident
run on its own in enqueue order; `collect` mode delivers one unit per
destination group in earliest-member enqueue order. -/
def baseUnits (st : QueueState) (mode : QueueMode) : List DeliveryUnit :=
  match mode with
  | .followup => st.runs.map (fun r => ⟨r, [r], false⟩)
  | .collect =>
    (groupRuns st.runs).filterMap (fun g =>
      (buildUnitRun g).map (fun u => ⟨u, g, false⟩))

/-- Modelled from the spec (§4.3 step 4): the overflow notice built from
the overflow log, one `- <preview>` line per dropped run in eviction
order (singular `message` for one dropped run, per Scenario C). -/
def overflowText (ov : List OverflowEntry) : String :=
  "[Queue overflow] Dropped " ++ toString ov.length ++
    (if ov.length = 1 then " message" else " messages") ++ " due to cap." ++
    String.join (ov.map (fun e => "\n- " ++ e.preview))

/-- Modelled from the spec (§4.3 step 4): when the overflow log is
non-empty, its notice is attached to the first delivery unit of the pass,
which then consumes the log on success. -/
def attachOverflow (ov : List OverflowEntry) :
    List DeliveryUnit → List DeliveryUnit
  | [] => []
  | u :: us =>
    match ov with
    | [] => u :: us
    | _ :: _ =>
      { u with
          run := { u.run with
                    prompt := overflowText ov ++ "\n" ++ u.run.prompt },
          takesOverflow := true } :: us

/-- Modelled from the spec (§4.3): the delivery units of a drain pass over
the current QueueState. -/
def buildUnits (st : QueueState) (mode : QueueMode) : List DeliveryUnit :=
  attachOverflow st.overflow (baseUnits st mode)

/-- Modelled from the spec (§4.4): the state after one unit's delivery
succeeds — exactly that unit's member runs are removed and the overflow
entries attached to it are cleared. -/
def applySuccess (st : QueueState) (u : DeliveryUnit) : QueueState :=
  { runs := u.members.foldl (fun rs m => rs.erase m) st.runs,
    overflow := if u.takesOverflow then [] else st.overflow }

/-- Modelled from the spec (§4.4): one delivery attempt of a drain pass.
The next unit is re-derived from the current QueueState; `ok` is the
executor outcome.  Success applies the unit and reports the delivered run;
failure leaves the state untouched and delivers nothing. -/
def drainStep (mode : QueueMode) (st : QueueState) (ok : Bool) :
    QueueState × Option FollowupRun :=
  match buildUnits st mode with
  | [] => (st, none)
  | u :: _ =>
    if ok then (applySuccess st u, some u.run)
    else (st, none)

/-- Modelled from the spec (§4.2, §5): the per-key drain-scheduler state —
the number of drain passes in flight and the re-arm flag. -/
structure SchedState where
  inFlight : Nat
  rearmPending : Bool
deriving DecidableEq, Repr

/-- Modelled from the spec (§4.2): the events the scheduler reacts to — a
drain trigger, and an in-flight pass settling (with whether the queue is
then empty). -/
inductive SchedEvent where
  | trigger
  | settle (queueEmpty : Bool)
deriving DecidableEq, Repr

/-- Modelled from the spec (§4.2): the scheduler transition.  The returned
Bool is `true` exactly when a new drain pass starts.  A trigger while a
pass is in flight only sets `rearmPending`; a settle re-arms when
`rearmPending` is set or the queue is still non-empty. -/
def schedStep (s : SchedState) : SchedEvent → SchedState × Bool
  | .trigger =>
    if s.inFlight = 0 then (⟨1, false⟩, true)
    else ({ s with rearmPending := true }, false)
  | .settle queueEmpty =>
    if s.inFlight = 0 then (s, false)
    else if s.rearmPending || !queueEmpty then (⟨1, false⟩, true)
    else (⟨0, false⟩, false)

/-- Modelled from the spec (§4.2): run the scheduler over an event trace. -/
def schedExec (s : SchedState) (evs : List SchedEvent) : SchedState :=
  evs.foldl (fun s e => (schedStep s e).1) s

/-! Embedding of src/slack/monitor/events/reactions.ts and
src/slack/monitor/events/pins.ts.  The collaborating services
(`authorizeSlackSystemEventSender`, `resolveSlackChannelLabel`,
`ctx.resolveUserName`, `ctx.resolveSlackSystemEventSessionKey`,
`enqueueSystemEvent`) live outside this tree and enter as an environment
of oracle functions; the asynchronous ones may fail, modelled by
`Except String`.  Observable actions are recorded as an effect trace. -/

/-- Result of `authorizeSlackSystemEventSender`. -/
structure AuthResult where
  allowed : Bool
  reason : Option String
  channelName : Option String
  channelType : Option String
deriving DecidableEq, Repr

/-- The external collaborators of the Slack event handlers. -/
structure SlackEnv where
  authorize : Option String → Option String → Except String AuthResult
  resolveUserName : String → Except String (Option String)
  resolveChannelLabel : Option String → Option String → String
  resolveSessionKey : Option String → Option String → String
  enqueueSystemEvent : String → String → String → Except String Unit

/-- One observable action of a Slack event handler. -/
inductive SlackEffect where
  | authAttempt (senderId : Option String) (channelId : Option String)
  | logLine (s : String)
  | systemEvent (text : String) (sessionKey : String) (contextKey : String)
deriving DecidableEq, Repr

/-- `item` of a Slack reaction event. -/
structure SlackReactionItem where
  type : String
  channel : Option String
  ts : Option String
deriving DecidableEq, Repr

/-- A Slack reaction event (reactions.ts `SlackReactionEvent`). -/
structure SlackReactionEvent where
  item : Option SlackReactionItem
  user : Option String
  reaction : Option String
  item_user : Option String
deriving DecidableEq, Repr

/-- TypeScript template-literal rendering of a possibly-undefined string. -/
def optStr : Option String → String
  | some s => s
  | none => "undefined"

/-- TypeScript `?? "unknown"` rendering. -/
def orUnknown : Option String → String
  | some s => s
  | none => "unknown"

/-- TypeScript truthiness of an optional string (`undefined` and `""` are
falsy). -/
def truthy : Option String → Option String
  | some s => if s = "" then none else some s
  | none => none

/-- `event.user ? await ctx.resolveUserName(event.user) : undefined`,
flattened to the optional resolved name. -/
def resolveOptUser (env : SlackEnv) : Option String →
    Except String (Option String)
  | some u => env.resolveUserName u
  | none => .ok none

/-- The body of reactions.ts `handleReactionEvent` inside its `try`:
the effects performed, paired with the error it throws, if any. -/
def reactionBody (env : SlackEnv) (event : SlackReactionEvent)
    (action : String) : List SlackEffect × Option String :=
  match event.item with
  | none => ([], none)
  | some item =>
    if item.type = "message" then
      match env.authorize event.user item.channel with
      | .error e => ([.authAttempt event.user item.channel], some e)
      | .ok auth =>
        if auth.allowed then
          let channelLabel := env.resolveChannelLabel item.channel
            auth.channelName
          match resolveOptUser env event.user with
          | .error e => ([.authAttempt event.user item.channel], some e)
          | .ok actorName =>
            let actorLabel : Option String :=
              match actorName with
              | some n => some n
              | none => event.user
            let emojiLabel :=
              match event.reaction with
              | some r => r
              | none => "emoji"
            match resolveOptUser env event.item_user with
            | .error e => ([.authAttempt event.user item.channel], some e)
            | .ok authorName =>
              let authorLabel : Option String :=
                match authorName with
                | some n => some n
                | none => event.item_user
              let baseText := "Slack reaction " ++ action ++ ": :" ++
                emojiLabel ++ ": by " ++ optStr actorLabel ++ " in " ++
                channelLabel ++ " msg " ++ optStr item.ts
              let text :=
                match truthy authorLabel with
                | some a => baseText ++ " from " ++ a
                | none => baseText
              let sessionKey := env.resolveSessionKey item.channel
                auth.channelType
              let contextKey := "slack:reaction:" ++ action ++ ":" ++
                optStr item.channel ++ ":" ++ optStr item.ts ++ ":" ++
                optStr event.user ++ ":" ++ emojiLabel
              match env.enqueueSystemEvent text sessionKey contextKey with
              | .error e => ([.authAttempt event.user item.channel], some e)
              | .ok _ =>
                ([.authAttempt event.user item.channel,
                  .systemEvent text sessionKey contextKey], none)
        else
          ([.authAttempt event.user item.channel,
            .logLine ("slack: drop reaction sender " ++
              orUnknown event.user ++ " channel=" ++
              orUnknown item.channel ++ " reason=" ++
              orUnknown auth.reason)], none)
    else ([], none)

/-- reactions.ts `handleReactionEvent` with its `try`/`catch`: an
`Except.error` would model an exception escaping to the caller; the catch
arm instead resolves normally, reporting through `ctx.runtime.error`. -/
def handleReactionEvent (env : SlackEnv) (event : SlackReactionEvent)
    (action : String) : Except String (List SlackEffect × Option String) :=
  match reactionBody env event action with
  | (effs, none) => .ok (effs, none)
  | (effs, some e) =>
    .ok (effs, some ("slack reaction handler failed: " ++ e))

/-- The handler registered for `reaction_added` in
`registerSlackReactionEvents`: the mismatched-event guard, then
`handleReactionEvent` with action `"added"`. -/
def reactionAddedHandler (env : SlackEnv) (shouldDrop : Bool)
    (event : SlackReactionEvent) :
    Except String (List SlackEffect × Option String) :=
  if shouldDrop then .ok ([], none)
  else handleReactionEvent env event "added"

/-- The handler registered for `reaction_removed` in
`registerSlackReactionEvents`. -/
def reactionRemovedHandler (env : SlackEnv) (shouldDrop : Bool)
    (event : SlackReactionEvent) :
    Except String (List SlackEffect × Option String) :=
  if shouldDrop then .ok ([], none)
  else handleReactionEvent env event "removed"

/-- A Slack pin event (pins.ts `SlackPinEvent`); `item?.message?.ts` is
flattened into `messageTs`. -/
structure SlackPinEvent where
  user : Option String
  channel_id : Option String
  event_ts : Option String
  itemType : Option String
  messageTs : Option String
deriving DecidableEq, Repr

/-- The body of pins.ts `handleSlackPinEvent` inside its `try`: the
effects performed, paired with the error it throws, if any. -/
def pinBody (env : SlackEnv) (shouldDrop : Bool) (event : SlackPinEvent)
    (action : String) (contextKeySuffix : String) :
    List SlackEffect × Option String :=
  if shouldDrop then ([], none)
  else
    match env.authorize event.user event.channel_id with
    | .error e => ([.authAttempt event.user event.channel_id], some e)
    | .ok auth =>
      if auth.allowed then
        let label := env.resolveChannelLabel event.channel_id
          auth.channelName
        match resolveOptUser env event.user with
        | .error e => ([.authAttempt event.user event.channel_id], some e)
        | .ok userName =>
          let userLabel :=
            match userName with
            | some n => n
            | none =>
              match event.user with
              | some u => u
              | none => "someone"
          let itemType :=
            match event.itemType with
            | some t => t
            | none => "item"
          let messageId : Option String :=
            match event.messageTs with
            | some ts => some ts
            | none => event.event_ts
          let sessionKey := env.resolveSessionKey event.channel_id
            auth.channelType
          let text := "Slack: " ++ userLabel ++ " " ++ action ++ " a " ++
            itemType ++ " in " ++ label ++ "."
          let contextKey := "slack:pin:" ++ contextKeySuffix ++ ":" ++
            orUnknown event.channel_id ++ ":" ++ orUnknown messageId
          match env.enqueueSystemEvent text sessionKey contextKey with
          | .error e =>
            ([.authAttempt event.user event.channel_id], some e)
          | .ok _ =>
            ([.authAttempt event.user event.channel_id,
              .systemEvent text sessionKey contextKey], none)
      else
        ([.authAttempt event.user event.channel_id,
          .logLine ("slack: drop pin sender " ++ orUnknown event.user ++
            " channel=" ++ orUnknown event.channel_id ++ " reason=" ++
            orUnknown auth.reason)], none)

/-- pins.ts `handleSlackPinEvent` with its `try`/`catch`: an
`Except.error` would model an exception escaping to the caller; the catch
arm instead resolves normally, reporting through `ctx.runtime.error`. -/
def handleSlackPinEvent (env : SlackEnv) (shouldDrop : Bool)
    (event : SlackPinEvent) (action : String) (contextKeySuffix : String)
    (errorLabel : String) :
    Except String (List SlackEffect × Option String) :=
  match pinBody env shouldDrop event action contextKeySuffix with
  | (effs, none) => .ok (effs, none)
  | (effs, some e) =>
    .ok (effs, some ("slack " ++ errorLabel ++ " handler failed: " ++ e))

/-- A destination group is non-empty and every member co-groups with its
head. -/
def headedBy (g : List FollowupRun) : Prop :=
  ∃ h t, g = h :: t ∧ ∀ x ∈ g, sameGroup h x

/-- Two destination groups are disjoint in routing: no member of one
co-groups with a member of the other. -/
def separated (g g' : List FollowupRun) : Prop :=
  ∀ a ∈ g, ∀ b ∈ g', ¬ sameGroup a b

/-- The partition invariant: every group is headed, and distinct groups
are pairwise separated. -/
def GoodGroups (gs : List (List FollowupRun)) : Prop :=
  (∀ g ∈ gs, headedBy g) ∧ gs.Pairwise separated

/-! Concrete sample data, mirroring the fixtures of
queue.collect-routing.test.ts. -/

/-- A minimal run with only a prompt, as built by the test's `createRun`. -/
def plainRun (p : String) (payload : Nat) : FollowupRun :=
  { prompt := p, messageId := none, enqueuedAt := payload,
    originatingChannel := none, originatingTo := none,
    originatingAccountId := none, originatingThreadId := none,
    runPayload := payload }

/-- Discord run `"Hello"` with message id `m1`. -/
def runHello : FollowupRun :=
  { plainRun "[Discord Guild #test channel id:123] Hello" 0 with
      messageId := some "m1", originatingChannel := some "discord",
      originatingTo := some "channel:123" }

/-- Discord run `"Hello (dupe)"` with the same message id `m1`. -/
def runHelloDupe : FollowupRun :=
  { plainRun "[Discord Guild #test channel id:123] Hello (dupe)" 1 with
      messageId := some "m1", originatingChannel := some "discord",
      originatingTo := some "channel:123" }

/-- WhatsApp run `"Hello world"` without a message id. -/
def runWa : FollowupRun :=
  { plainRun "Hello world" 0 with
      originatingChannel := some "whatsapp",
      originatingTo := some "+1234567890" }

/-- A second WhatsApp `"Hello world"` run (distinct payload). -/
def runWa2 : FollowupRun :=
  { plainRun "Hello world" 1 with
      originatingChannel := some "whatsapp",
      originatingTo := some "+1234567890" }

/-- Slack run `"one"` in thread `1706000000.000001` of `channel:A`. -/
def slackA1 : FollowupRun :=
  { plainRun "one" 0 with
      originatingChannel := some "slack", originatingTo := some "channel:A",
      originatingThreadId := some (.str "1706000000.000001") }

/-- Slack run `"two"` in the same thread of `channel:A`. -/
def slackA2 : FollowupRun :=
  { plainRun "two" 1 with
      originatingChannel := some "slack", originatingTo := some "channel:A",
      originatingThreadId := some (.str "1706000000.000001") }

/-- Run `"one"` with no routing, as in the retry test. -/
def runOne : FollowupRun := plainRun "one" 0

/-- Run `"two"` with no routing, as in the retry test. -/
def runTwo : FollowupRun := plainRun "two" 1

/-- Run `"first"`, as in the overflow test. -/
def runFirst : FollowupRun := plainRun "first" 0

/-- Run `"second"`, as in the overflow test. -/
def runSecond : FollowupRun := plainRun "second" 1

/-- The test's `COLLECT_SETTINGS`. -/
def collectSettings : QueueSettings :=
  { mode := .collect, debounceMs := 0, cap := 50 }

/-- The overflow test's followup settings with `cap = 1`. -/
def capOneSettings : QueueSettings :=
  { mode := .followup, debounceMs := 0, cap := 1 }

/-- An environment whose collaborators all succeed trivially. -/
def trivialSlackEnv : SlackEnv :=
  { authorize := fun _ _ => .ok ⟨true, none, none, none⟩,
    resolveUserName := fun _ => .ok none,
    resolveChannelLabel := fun _ _ => "",
    resolveSessionKey := fun _ _ => "",
    enqueueSystemEvent := fun _ _ _ => .ok () }

/-! Theorems. -/

theorem sameGroup_rfl (a : FollowupRun) : sameGroup a a :=
  ⟨rfl, rfl, fun _ => rfl⟩

theorem sameGroup_symm {a b : FollowupRun} (h : sameGroup a b) :
    sameGroup b a := by
  obtain ⟨h1, h2, h3⟩ := h
  exact ⟨h1.symm, h2.symm, fun hb => (h3 (h1.trans hb)).symm⟩

theorem sameGroup_trans {a b c : FollowupRun} (hab : sameGroup a b)
    (hbc : sameGroup b c) : sameGroup a c := by
  obtain ⟨h1, h2, h3⟩ := hab
  obtain ⟨h4, h5, h6⟩ := hbc
  refine ⟨h1.trans h4, h2.trans h5, fun ha => ?_⟩
  exact (h3 ha).trans (h6 (h1 ▸ ha))

theorem separated_symmetric : Symmetric separated := by
  intro g g' hsep a ha b hb hab
  exact hsep b hb a ha (sameGroup_symm hab)

theorem midPresent_eq_some_iff (r : FollowupRun) (m : String) :
    midPresent r = some m ↔ r.messageId = some m ∧ m ≠ "" := by
  unfold midPresent
  cases hr : r.messageId with
  | none => simp
  | some s =>
    by_cases hs : s = ""
    · subst hs
      simp only [if_pos rfl]
      constructor
      · intro h
        exact absurd h (by simp)
      · rintro ⟨h1, h2⟩
        exact absurd (Option.some.inj h1).symm h2
    · simp only [if_neg hs, Option.some.injEq]
      constructor
      · intro h
        exact ⟨h, h ▸ hs⟩
      · rintro ⟨h1, _⟩
        exact h1

theorem enqueue_true_of_not_dup (st : QueueState) (run : FollowupRun)
    (settings : QueueSettings) (mode : DedupeMode) (now : Nat)
    (h : isDuplicate st.runs run mode = false) :
    (enqueueFollowupRun st run settings mode now).1 = true := by
  unfold enqueueFollowupRun
  rw [h]
  simp only [Bool.false_eq_true, if_false]
  split
  · rfl
  · split <;> rfl

/-- Claim C2: two enqueues on the same key carrying an equal non-empty
`messageId`, the first still resident, make the second call return `false`
with no state change, irrespective of `dedupeMode` or prompt content; a
call whose `messageId` matches no resident run returns `true`. -/
theorem enqueue_messageId_dedupe (st : QueueState) (run : FollowupRun)
    (settings : QueueSettings) (mode : DedupeMode) (now : Nat) (m : String)
    (hm : run.messageId = some m) (hne : m ≠ "") :
    ((∃ r ∈ st.runs, r.messageId = some m) →
      enqueueFollowupRun st run settings mode now = (false, st)) ∧
    ((∀ r ∈ st.runs, r.messageId ≠ some m) →
      (enqueueFollowupRun st run settings mode now).1 = true) := by
  have hmid : midPresent run = some m :=
    (midPresent_eq_some_iff run m).2 ⟨hm, hne⟩
  constructor
  · rintro ⟨r, hr, hrm⟩
    have hdup : isDuplicate st.runs run mode = true := by
      unfold isDuplicate
      rw [hmid]
      exact List.any_eq_true.2
        ⟨r, hr, by
          simp only [decide_eq_true_eq]
          exact (midPresent_eq_some_iff r m).2 ⟨hrm, hne⟩⟩
    unfold enqueueFollowupRun
    rw [hdup]
    simp
  · intro hnone
    apply enqueue_true_of_not_dup
    unfold isDuplicate
    rw [hmid]
    apply List.any_eq_false.2
    intro r hr
    simp only [decide_eq_true_eq]
    intro hcontra
    exact hnone r hr ((midPresent_eq_some_iff r m).1 hcontra).1

/-- Claim C5: enqueue never fails for capacity — a non-duplicate run always gets
`true`; below `cap` it is appended; at `cap` the oldest resident run is
evicted, its prompt preview stamped with the current time is appended to
the overflow log, and the new run is appended. -/
theorem enqueue_capacity (st : QueueState) (run : FollowupRun)
    (settings : QueueSettings) (mode : DedupeMode) (now : Nat)
    (hdup : isDuplicate st.runs run mode = false) :
    (enqueueFollowupRun st run settings mode now).1 = true ∧
    (st.runs.length < settings.cap →
      enqueueFollowupRun st run settings mode now =
        (true, { st with runs := st.runs ++ [run] })) ∧
    (∀ old rest, st.runs = old :: rest →
      st.runs.length = settings.cap →
      enqueueFollowupRun st run settings mode now =
        (true, { st with
                  runs := rest ++ [run],
                  overflow := st.overflow ++ [⟨old.prompt, now⟩] })) := by
  refine ⟨enqueue_true_of_not_dup st run settings mode now hdup, ?_, ?_⟩
  · intro hlt
    unfold enqueueFollowupRun
    rw [hdup]
    simp [hlt]
  · intro old rest hcons hcap
    unfold enqueueFollowupRun
    rw [hdup]
    have hnotlt : ¬ st.runs.length < settings.cap := by
      rw [hcap]
      exact Nat.lt_irrefl _
    simp only [Bool.false_eq_true, if_false, if_neg hnotlt]
    rw [hcons]

/-- Claim C7: with `messageId` absent and `dedupeMode = "prompt"`, a run is a
duplicate exactly when some resident run matches its prompt, channel and
destination (thread id not compared), in which case enqueue returns
`false` with no state change; with the default `"messageId"` mode and no
`messageId`, content never deduplicates and enqueue returns `true`. -/
theorem enqueue_prompt_dedupe (st : QueueState) (run : FollowupRun)
    (settings : QueueSettings) (now : Nat)
    (habs : run.messageId = none) :
    (isDuplicate st.runs run .prompt = true ↔
      ∃ r ∈ st.runs, r.prompt = run.prompt ∧
        r.originatingChannel = run.originatingChannel ∧
        r.originatingTo = run.originatingTo) ∧
    ((∃ r ∈ st.runs, r.prompt = run.prompt ∧
        r.originatingChannel = run.originatingChannel ∧
        r.originatingTo = run.originatingTo) →
      enqueueFollowupRun st run settings .prompt now = (false, st)) ∧
    ((∀ r ∈ st.runs, ¬ (r.prompt = run.prompt ∧
        r.originatingChannel = run.originatingChannel ∧
        r.originatingTo = run.originatingTo)) →
      (enqueueFollowupRun st run settings .prompt now).1 = true) ∧
    (enqueueFollowupRun st run settings .messageId now).1 = true := by
  have hmid : midPresent run = none := by
    unfold midPresent
    rw [habs]
  have hiff : isDuplicate st.runs run .prompt = true ↔
      ∃ r ∈ st.runs, r.prompt = run.prompt ∧
        r.originatingChannel = run.originatingChannel ∧
        r.originatingTo = run.originatingTo := by
    unfold isDuplicate
    rw [hmid]
    simp only [List.any_eq_true, Bool.and_eq_true, decide_eq_true_eq]
    constructor
    · rintro ⟨r, hr, ⟨h1, h2⟩, h3⟩
      exact ⟨r, hr, h1, h2, h3⟩
    · rintro ⟨r, hr, h1, h2, h3⟩
      exact ⟨r, hr, ⟨h1, h2⟩, h3⟩
  refine ⟨hiff, ?_, ?_, ?_⟩
  · intro hex
    unfold enqueueFollowupRun
    rw [hiff.2 hex]
    simp
  · intro hall
    apply enqueue_true_of_not_dup
    cases hd : isDuplicate st.runs run .prompt with
    | false => rfl
    | true =>
      obtain ⟨r, hr, hprops⟩ := hiff.1 hd
      exact absurd hprops (hall r hr)
  · apply enqueue_true_of_not_dup
    unfold isDuplicate
    rw [hmid]

/-- Claim C1: when a drain pass has a next delivery unit, a failed attempt
returns the QueueState (runs and overflow log) unchanged and delivers
nothing, a successful attempt delivers exactly that unit once, and the run
delivered by the retry after a failure is identical to the one the failed
attempt carried — so one failure followed by one success yields exactly
one delivery with identical content. -/
theorem retry_delivers_exactly_once (mode : QueueMode) (st : QueueState)
    (u : DeliveryUnit) (us : List DeliveryUnit)
    (h : buildUnits st mode = u :: us) :
    drainStep mode st false = (st, none) ∧
    drainStep mode st true = (applySuccess st u, some u.run) ∧
    (drainStep mode (drainStep mode st false).1 true).2 = some u.run := by
  refine ⟨?_, ?_, ?_⟩ <;> simp [drainStep, h]

/-- Claim C6: when the overflow log is non-empty as a drain pass's units are
built, the first unit's delivered prompt is the overflow notice (count
plus one `- <preview>` line per dropped run in eviction order) attached to
its base prompt and that unit consumes the log; a failed delivery leaves
the log intact, and the log is cleared exactly when that unit's delivery
succeeds. -/
theorem overflow_attached_and_cleared_on_success (st : QueueState)
    (mode : QueueMode) (b : DeliveryUnit) (bs : List DeliveryUnit)
    (hov : st.overflow ≠ [])
    (hb : baseUnits st mode = b :: bs) :
    buildUnits st mode =
      { b with
          run := { b.run with
                    prompt := overflowText st.overflow ++ "\n" ++
                      b.run.prompt },
          takesOverflow := true } :: bs ∧
    (drainStep mode st false).1.overflow = st.overflow ∧
    (drainStep mode st true).1.overflow = [] := by
  have hbuild : buildUnits st mode =
      { b with
          run := { b.run with
                    prompt := overflowText st.overflow ++ "\n" ++
                      b.run.prompt },
          takesOverflow := true } :: bs := by
    unfold buildUnits
    rw [hb]
    cases hovc : st.overflow with
    | nil => exact absurd hovc hov
    | cons e ov' =>
      rw [← hovc]
      unfold attachOverflow
      rw [hovc]
  refine ⟨hbuild, ?_, ?_⟩
  · simp [drainStep, hbuild]
  · simp [drainStep, hbuild, applySuccess]

theorem schedStep_inFlight_le (s : SchedState) (e : SchedEvent)
    (h : s.inFlight ≤ 1) : (schedStep s e).1.inFlight ≤ 1 := by
  cases e with
  | trigger =>
    unfold schedStep
    by_cases h0 : s.inFlight = 0
    · simp [h0]
    · simp only [if_neg h0]
      exact h
  | settle qe =>
    unfold schedStep
    by_cases h0 : s.inFlight = 0
    · simp only [if_pos h0]
      exact h
    · simp only [if_neg h0]
      by_cases hre : (s.rearmPending || !qe) = true
      · simp [hre]
      · simp [hre]

theorem schedExec_inFlight_le (evs : List SchedEvent) (s : SchedState)
    (h : s.inFlight ≤ 1) : (schedExec s evs).inFlight ≤ 1 := by
  induction evs generalizing s with
  | nil => exact h
  | cons e rest ih =>
    exact ih (schedStep s e).1 (schedStep_inFlight_le s e h)

/-- Claim C8: at most one drain pass is in flight per key along any event trace
from the idle state; a trigger arriving mid-drain starts no second pass
and only sets `rearmPending`; once the in-flight pass settles, a pending
re-arm (or a still non-empty queue) starts exactly one new pass, and an
unneeded re-arm stops; each successful delivery attempt hands the executor
the head delivery unit, so callbacks for one key run strictly one at a
time in unit order. -/
theorem drain_single_flight_and_rearm :
    (∀ evs : List SchedEvent, (schedExec ⟨0, false⟩ evs).inFlight ≤ 1) ∧
    (∀ s : SchedState, s.inFlight = 1 →
      schedStep s .trigger = ({ s with rearmPending := true }, false)) ∧
    (∀ (s : SchedState) (qe : Bool), s.inFlight = 1 →
      s.rearmPending = true →
      schedStep s (.settle qe) = (⟨1, false⟩, true)) ∧
    (∀ s : SchedState, s.inFlight = 1 → s.rearmPending = false →
      schedStep s (.settle false) = (⟨1, false⟩, true)) ∧
    (∀ s : SchedState, s.inFlight = 1 → s.rearmPending = false →
      schedStep s (.settle true) = (⟨0, false⟩, false)) ∧
    (∀ (mode : QueueMode) (st : QueueState),
      (drainStep mode st true).2 =
        Option.map DeliveryUnit.run (buildUnits st mode).head?) := by
  refine ⟨?_, ?_, ?_, ?_, ?_, ?_⟩
  · intro evs
    exact schedExec_inFlight_le evs ⟨0, false⟩ (by simp)
  · intro s h1
    unfold schedStep
    rw [if_neg (by rw [h1]; exact Nat.one_ne_zero)]
  · intro s qe h1 hre
    simp [schedStep, h1, hre]
  · intro s h1 hre
    simp [schedStep, h1, hre]
  · intro s h1 hre
    simp [schedStep, h1, hre]
  · intro mode st
    unfold drainStep
    cases h : buildUnits st mode <;> simp

/-- Claim C9: a Slack reaction event whose `item` is missing or is not of type
`"message"` makes both registered reaction handlers return without
performing sender authorization and without enqueueing any system event. -/
theorem reaction_non_message_ignored (env : SlackEnv) (shouldDrop : Bool)
    (event : SlackReactionEvent)
    (h : event.item = none ∨
      ∀ it, event.item = some it → it.type ≠ "message") :
    reactionAddedHandler env shouldDrop event = .ok ([], none) ∧
    reactionRemovedHandler env shouldDrop event = .ok ([], none) := by
  have hbody : ∀ action, reactionBody env event action = ([], none) := by
    intro action
    cases hit : event.item with
    | none => simp [reactionBody, hit]
    | some it =>
      rcases h with h | h
      · rw [hit] at h
        exact absurd h (by simp)
      · simp [reactionBody, hit, h it hit]
  have hhandle : ∀ action,
      handleReactionEvent env event action = .ok ([], none) := by
    intro action
    unfold handleReactionEvent
    rw [hbody action]
  constructor
  · unfold reactionAddedHandler
    cases shouldDrop with
    | false => simpa using hhandle "added"
    | true => rfl
  · unfold reactionRemovedHandler
    cases shouldDrop with
    | false => simpa using hhandle "removed"
    | true => rfl

/-- Claim C10: the Slack pin and reaction handlers never propagate an exception:
whatever the event and however the authorization, name-resolution and
enqueue collaborators fail, each handler resolves normally (`Except.ok`),
reporting any caught error only through the runtime error callback. -/
theorem slack_handlers_never_throw (env : SlackEnv) (shouldDrop : Bool)
    (reactionEvent : SlackReactionEvent) (action : String)
    (pinEvent : SlackPinEvent) (pinAction : String) (suffix : String)
    (errorLabel : String) :
    (∃ v, handleReactionEvent env reactionEvent action = .ok v) ∧
    (∃ v, reactionAddedHandler env shouldDrop reactionEvent = .ok v) ∧
    (∃ v, reactionRemovedHandler env shouldDrop reactionEvent = .ok v) ∧
    (∃ v, handleSlackPinEvent env shouldDrop pinEvent pinAction suffix
      errorLabel = .ok v) := by
  have hreact : ∀ a, ∃ v, handleReactionEvent env reactionEvent a = .ok v := by
    intro a
    unfold handleReactionEvent
    rcases hb : reactionBody env reactionEvent a with ⟨effs, err⟩
    cases err <;> exact ⟨_, rfl⟩
  refine ⟨hreact action, ?_, ?_, ?_⟩
  · unfold reactionAddedHandler
    cases shouldDrop with
    | false => simpa using hreact "added"
    | true => exact ⟨_, rfl⟩
  · unfold reactionRemovedHandler
    cases shouldDrop with
    | false => simpa using hreact "removed"
    | true => exact ⟨_, rfl⟩
  · unfold handleSlackPinEvent
    rcases hb : pinBody env shouldDrop pinEvent pinAction suffix
      with ⟨effs, err⟩
    cases err <;> exact ⟨_, rfl⟩

theorem insertRun_mem_old (gs : List (List FollowupRun)) (r x : FollowupRun)
    (g : List FollowupRun) (hg : g ∈ gs) (hx : x ∈ g) :
    ∃ g' ∈ insertRun gs r, x ∈ g' := by
  induction gs with
  | nil => exact absurd hg (List.not_mem_nil g)
  | cons g0 gs ih =>
    cases g0 with
    | nil =>
      rcases List.mem_cons.1 hg with hg0 | hgs
      · subst hg0
        exact absurd hx (List.not_mem_nil x)
      · obtain ⟨g', hg', hx'⟩ := ih hgs
        exact ⟨g', List.mem_cons_of_mem _ hg', hx'⟩
    | cons h t =>
      by_cases hsg : sameGroup h r
      · rw [insertRun, if_pos hsg]
        rcases List.mem_cons.1 hg with hg0 | hgs
        · subst hg0
          refine ⟨h :: (t ++ [r]), List.mem_cons_self _ _, ?_⟩
          rcases List.mem_cons.1 hx with hxh | hxt
          · exact hxh ▸ List.mem_cons_self _ _
          · exact List.mem_cons_of_mem _ (List.mem_append_left _ hxt)
        · exact ⟨g, List.mem_cons_of_mem _ hgs, hx⟩
      · rw [insertRun, if_neg hsg]
        rcases List.mem_cons.1 hg with hg0 | hgs
        · exact ⟨g, hg0 ▸ List.mem_cons_self _ _, hx⟩
        · obtain ⟨g', hg', hx'⟩ := ih hgs
          exact ⟨g', List.mem_cons_of_mem _ hg', hx'⟩

theorem insertRun_mem_new (gs : List (List FollowupRun)) (r : FollowupRun) :
    ∃ g ∈ insertRun gs r, r ∈ g := by
  induction gs with
  | nil =>
    exact ⟨[r], List.mem_cons_self _ _, List.mem_cons_self _ _⟩
  | cons g0 gs ih =>
    cases g0 with
    | nil =>
      obtain ⟨g, hg, hr⟩ := ih
      exact ⟨g, List.mem_cons_of_mem _ hg, hr⟩
    | cons h t =>
      by_cases hsg : sameGroup h r
      · rw [insertRun, if_pos hsg]
        refine ⟨h :: (t ++ [r]), List.mem_cons_self _ _, ?_⟩
        exact List.mem_cons_of_mem _
          (List.mem_append_right _ (List.mem_cons_self _ _))
      · rw [insertRun, if_neg hsg]
        obtain ⟨g, hg, hr⟩ := ih
        exact ⟨g, List.mem_cons_of_mem _ hg, hr⟩

theorem insertRun_mem_inv (gs : List (List FollowupRun)) (r x : FollowupRun)
    (g : List FollowupRun) (hg : g ∈ insertRun gs r) (hx : x ∈ g) :
    (∃ g0 ∈ gs, x ∈ g0) ∨ x = r := by
  induction gs with
  | nil =>
    rcases List.mem_cons.1 hg with hg0 | hgs
    · subst hg0
      rcases List.mem_cons.1 hx with hxr | hxn
      · exact Or.inr hxr
      · exact absurd hxn (List.not_mem_nil x)
    · exact absurd hgs (List.not_mem_nil g)
  | cons g0 gs ih =>
    cases g0 with
    | nil =>
      rw [insertRun] at hg
      rcases List.mem_cons.1 hg with hg0 | hgs
      · subst hg0
        exact absurd hx (List.not_mem_nil x)
      · rcases ih hgs with ⟨g1, hg1, hx1⟩ | hr
        · exact Or.inl ⟨g1, List.mem_cons_of_mem _ hg1, hx1⟩
        · exact Or.inr hr
    | cons h t =>
      by_cases hsg : sameGroup h r
      · rw [insertRun, if_pos hsg] at hg
        rcases List.mem_cons.1 hg with hg0 | hgs
        · subst hg0
          rcases List.mem_cons.1 hx with hxh | hxt
          · exact Or.inl ⟨h :: t, List.mem_cons_self _ _,
              hxh ▸ List.mem_cons_self _ _⟩
          · rcases List.mem_append.1 hxt with hxt' | hxr
            · exact Or.inl ⟨h :: t, List.mem_cons_self _ _,
                List.mem_cons_of_mem _ hxt'⟩
            · exact Or.inr (List.mem_singleton.1 hxr)
        · exact Or.inl ⟨g, List.mem_cons_of_mem _ hgs, hx⟩
      · rw [insertRun, if_neg hsg] at hg
        rcases List.mem_cons.1 hg with hg0 | hgs
        · exact Or.inl ⟨h :: t, List.mem_cons_self _ _, hg0 ▸ hx⟩
        · rcases ih hgs with ⟨g1, hg1, hx1⟩ | hr
          · exact Or.inl ⟨g1, List.mem_cons_of_mem _ hg1, hx1⟩
          · exact Or.inr hr

theorem insertRun_good (gs : List (List FollowupRun)) (r : FollowupRun)
    (hgood : GoodGroups gs) : GoodGroups (insertRun gs r) := by
  induction gs with
  | nil =>
    refine ⟨?_, ?_⟩
    · intro g hg
      rcases List.mem_cons.1 hg with hg0 | hgs
      · subst hg0
        refine ⟨r, [], rfl, ?_⟩
        intro x hx
        rw [List.mem_singleton.1 hx]
        exact sameGroup_rfl r
      · exact absurd hgs (List.not_mem_nil g)
    · exact List.pairwise_singleton _ _
  | cons g0 gs ih =>
    obtain ⟨hhead, hpair⟩ := hgood
    have hsep0 : ∀ g' ∈ gs, separated g0 g' :=
      (List.pairwise_cons.1 hpair).1
    have hpairtl : List.Pairwise separated gs :=
      (List.pairwise_cons.1 hpair).2
    cases g0 with
    | nil =>
      obtain ⟨h0, t0, habs, -⟩ := hhead [] (List.mem_cons_self _ _)
      exact absurd habs (by simp)
    | cons h t =>
      obtain ⟨h0, t0, hcons, hall0⟩ :=
        hhead (h :: t) (List.mem_cons_self _ _)
      have hh0 : h0 = h := (List.cons.inj hcons.symm).1
      have hall : ∀ x ∈ h :: t, sameGroup h x := by
        intro x hx
        exact hh0 ▸ hall0 x (hcons ▸ hx)
      by_cases hsg : sameGroup h r
      · rw [insertRun, if_pos hsg]
        refine ⟨?_, ?_⟩
        · intro g hg
          rcases List.mem_cons.1 hg with hg0 | hgs
          · subst hg0
            refine ⟨h, t ++ [r], rfl, ?_⟩
            intro x hx
            rcases List.mem_cons.1 hx with hxh | hxt
            · exact hxh ▸ sameGroup_rfl h
            · rcases List.mem_append.1 hxt with hxt' | hxr
              · exact hall x (List.mem_cons_of_mem _ hxt')
              · exact (List.mem_singleton.1 hxr) ▸ hsg
          · exact hhead g (List.mem_cons_of_mem _ hgs)
        · refine List.pairwise_cons.2 ⟨?_, hpairtl⟩
          intro g' hg' a ha b hb hab
          rcases List.mem_cons.1 ha with hah | hat
          · exact hsep0 g' hg' a (hah ▸ List.mem_cons_self _ _) b hb hab
          · rcases List.mem_append.1 hat with hat' | har
            · exact hsep0 g' hg' a (List.mem_cons_of_mem _ hat') b hb hab
            · have har' : a = r := List.mem_singleton.1 har
              have hhb : sameGroup h b :=
                sameGroup_trans hsg (har' ▸ hab)
              exact hsep0 g' hg' h (List.mem_cons_self _ _) b hb hhb
      · rw [insertRun, if_neg hsg]
        have hgoodtl : GoodGroups gs :=
          ⟨fun g hg => hhead g (List.mem_cons_of_mem _ hg), hpairtl⟩
        obtain ⟨hhead', hpair'⟩ := ih hgoodtl
        refine ⟨?_, ?_⟩
        · intro g hg
          rcases List.mem_cons.1 hg with hg0 | hgs
          · exact hg0 ▸ hhead (h :: t) (List.mem_cons_self _ _)
          · exact hhead' g hgs
        · refine List.pairwise_cons.2 ⟨?_, hpair'⟩
          intro g' hg' a ha b hb hab
          rcases insertRun_mem_inv gs r b g' hg' hb with ⟨g1, hg1, hb1⟩ | hbr
          · exact hsep0 g1 hg1 a ha b hb1 hab
          · have hhr : sameGroup h r :=
              sameGroup_trans (hall a ha) (hbr ▸ hab)
            exact hsg hhr

theorem foldl_insertRun_good (runs : List FollowupRun)
    (gs : List (List FollowupRun)) (hgood : GoodGroups gs) :
    GoodGroups (runs.foldl insertRun gs) := by
  induction runs generalizing gs with
  | nil => exact hgood
  | cons r rs ih => exact ih (insertRun gs r) (insertRun_good gs r hgood)

theorem foldl_insertRun_mem (runs : List FollowupRun)
    (gs : List (List FollowupRun)) (x : FollowupRun)
    (hx : (∃ g ∈ gs, x ∈ g) ∨ x ∈ runs) :
    ∃ g ∈ runs.foldl insertRun gs, x ∈ g := by
  induction runs generalizing gs with
  | nil =>
    rcases hx with hg | habs
    · exact hg
    · exact absurd habs (List.not_mem_nil x)
  | cons r rs ih =>
    rcases hx with ⟨g, hg, hxg⟩ | hxr
    · exact ih (insertRun gs r)
        (Or.inl (insertRun_mem_old gs r x g hg hxg))
    · rcases List.mem_cons.1 hxr with hxr' | hxrs
      · exact ih (insertRun gs r)
          (Or.inl (hxr' ▸ insertRun_mem_new gs r))
      · exact ih (insertRun gs r) (Or.inr hxrs)

theorem groupRuns_good (runs : List FollowupRun) :
    GoodGroups (groupRuns runs) :=
  foldl_insertRun_good runs []
    ⟨fun g hg => absurd hg (List.not_mem_nil g), List.Pairwise.nil⟩

theorem groupRuns_mem (runs : List FollowupRun) (x : FollowupRun)
    (hx : x ∈ runs) : ∃ g ∈ groupRuns runs, x ∈ g :=
  foldl_insertRun_mem runs [] x (Or.inr hx)

/-- Claim C3: two resident runs land in the same destination group exactly when
their `originatingChannel` and `originatingTo` are equal and, only for the
`"slack"` channel, their `originatingThreadId` also agree — `Option`
equality, so two undefined thread ids match each other while a defined one
never matches an undefined or different defined one. -/
theorem grouping_matches_destination (runs : List FollowupRun)
    (a b : FollowupRun) (ha : a ∈ runs) (hb : b ∈ runs) :
    (∃ g ∈ groupRuns runs, a ∈ g ∧ b ∈ g) ↔
      (a.originatingChannel = b.originatingChannel ∧
       a.originatingTo = b.originatingTo ∧
       (a.originatingChannel = some "slack" →
         a.originatingThreadId = b.originatingThreadId)) := by
  have hgood := groupRuns_good runs
  constructor
  · rintro ⟨g, hg, hag, hbg⟩
    obtain ⟨h, t, hcons, hall⟩ := hgood.1 g hg
    exact sameGroup_trans (sameGroup_symm (hall a hag)) (hall b hbg)
  · intro hsg
    obtain ⟨ga, hga, haga⟩ := groupRuns_mem runs a ha
    obtain ⟨gb, hgb, hbgb⟩ := groupRuns_mem runs b hb
    by_cases heq : ga = gb
    · exact ⟨ga, hga, haga, heq ▸ hbgb⟩
    · have hsep :=
        hgood.2.forall separated_symmetric hga hgb heq a haga b hbgb
      exact absurd hsg hsep

theorem stringJoin_cons (x : String) (xs : List String) :
    String.join (x :: xs) = x ++ String.join xs := by
  simp [String.join_eq]
  rfl

theorem queuedLines_closed (g : List FollowupRun) : ∀ i : Nat,
    queuedLines (i + 1) g =
      String.join ((List.enumFrom i g).map
        (fun p => "\nQueued #" ++ toString (p.1 + 1) ++ "\n" ++
          p.2.prompt)) := by
  induction g with
  | nil => intro i; rfl
  | cons r rs ih =>
    intro i
    have henum : List.enumFrom i (r :: rs) =
        (i, r) :: List.enumFrom (i + 1) rs := rfl
    rw [henum, List.map_cons, stringJoin_cons, ← ih (i + 1)]
    rfl

/-- Claim C4: in collect mode a multi-member destination group becomes one
synthetic run whose prompt is the header
`"[Queued messages while agent was busy]"` followed by `"Queued #i"` and
the i-th member's prompt in enqueue order, 1-indexed, inheriting the
group's channel, to, thread and account fields; a singleton group delivers
its original run unmodified; with an empty overflow log the collect drain
pass delivers exactly one such unit per destination group. -/
theorem collect_merges_into_one_unit (a b : FollowupRun)
    (t : List FollowupRun) (st : QueueState) (hov : st.overflow = []) :
    buildUnitRun [a] = some a ∧
    buildUnitRun (a :: b :: t) =
      some { a with prompt :=
        "[Queued messages while agent was busy]" ++
          String.join ((List.enum (a :: b :: t)).map
            (fun p => "\nQueued #" ++ toString (p.1 + 1) ++ "\n" ++
              p.2.prompt)) } ∧
    (∀ u, buildUnitRun (a :: b :: t) = some u →
      u.originatingChannel = a.originatingChannel ∧
      u.originatingTo = a.originatingTo ∧
      u.originatingThreadId = a.originatingThreadId ∧
      u.originatingAccountId = a.originatingAccountId) ∧
    buildUnits st .collect =
      (groupRuns st.runs).filterMap (fun g =>
        (buildUnitRun g).map (fun u => ⟨u, g, false⟩)) := by
  refine ⟨rfl, ?_, ?_, ?_⟩
  · have hq : queuedLines 1 (a :: b :: t) =
        String.join ((List.enum (a :: b :: t)).map
          (fun p => "\nQueued #" ++ toString (p.1 + 1) ++ "\n" ++
            p.2.prompt)) :=
      queuedLines_closed (a :: b :: t) 0
    rw [show buildUnitRun (a :: b :: t) =
      some { a with prompt := mergedPrompt (a :: b :: t) } from rfl]
    unfold mergedPrompt
    rw [hq]
  · intro u hu
    have hrec : { a with prompt := mergedPrompt (a :: b :: t) } = u :=
      Option.some.inj hu
    rw [← hrec]
    exact ⟨rfl, rfl, rfl, rfl⟩
  · unfold buildUnits
    rw [hov]
    show attachOverflow [] (baseUnits st .collect) = baseUnits st .collect
    cases baseUnits st .collect <;> rfl

/-! Witnesses: each hypothesis-bearing claim theorem applied at concrete
inputs from the test fixtures. -/

theorem enqueue_messageId_dedupe_witness :
    enqueueFollowupRun ⟨[runHello], []⟩ runHelloDupe collectSettings
      .messageId 5 = (false, ⟨[runHello], []⟩) :=
  (enqueue_messageId_dedupe ⟨[runHello], []⟩ runHelloDupe collectSettings
    .messageId 5 "m1" rfl (by decide)).1
    ⟨runHello, List.mem_cons_self _ _, rfl⟩

theorem enqueue_capacity_witness :
    enqueueFollowupRun ⟨[runFirst], []⟩ runSecond capOneSettings
      .messageId 7 = (true, ⟨[runSecond], [⟨"first", 7⟩]⟩) :=
  (enqueue_capacity ⟨[runFirst], []⟩ runSecond capOneSettings
    .messageId 7 rfl).2.2 runFirst [] rfl rfl

theorem enqueue_prompt_dedupe_witness :
    enqueueFollowupRun ⟨[runWa], []⟩ runWa2 collectSettings .prompt 3 =
      (false, ⟨[runWa], []⟩) :=
  (enqueue_prompt_dedupe ⟨[runWa], []⟩ runWa2 collectSettings 3 rfl).2.1
    ⟨runWa, List.mem_cons_self _ _, rfl, rfl, rfl⟩

theorem retry_delivers_exactly_once_witness :
    drainStep .followup ⟨[runFirst, runSecond], []⟩ false =
      (⟨[runFirst, runSecond], []⟩, none) ∧
    drainStep .followup ⟨[runFirst, runSecond], []⟩ true =
      (applySuccess ⟨[runFirst, runSecond], []⟩
        ⟨runFirst, [runFirst], false⟩, some runFirst) ∧
    (drainStep .followup
      (drainStep .followup ⟨[runFirst, runSecond], []⟩ false).1 true).2 =
      some runFirst :=
  retry_delivers_exactly_once .followup ⟨[runFirst, runSecond], []⟩
    ⟨runFirst, [runFirst], false⟩ [⟨runSecond, [runSecond], false⟩] rfl

theorem grouping_matches_destination_witness :
    ∃ g ∈ groupRuns [slackA1, slackA2], slackA1 ∈ g ∧ slackA2 ∈ g :=
  (grouping_matches_destination [slackA1, slackA2] slackA1 slackA2
    (List.mem_cons_self _ _)
    (List.mem_cons_of_mem _ (List.mem_cons_self _ _))).2
    ⟨rfl, rfl, fun _ => rfl⟩

theorem collect_merges_into_one_unit_witness :
    buildUnitRun [runOne, runTwo] =
      some { runOne with prompt :=
        "[Queued messages while agent was busy]" ++
        "\nQueued #1\none\nQueued #2\ntwo" } :=
  ((collect_merges_into_one_unit runOne runTwo [] ⟨[], []⟩ rfl).2.1).trans
    (by decide)

theorem overflow_attached_witness :
    buildUnits ⟨[runSecond], [⟨"first", 7⟩]⟩ .followup =
      [⟨{ runSecond with
            prompt := overflowText [⟨"first", 7⟩] ++ "\n" ++
              runSecond.prompt },
          [runSecond], true⟩] ∧
    (drainStep .followup ⟨[runSecond], [⟨"first", 7⟩]⟩ false).1.overflow =
      [⟨"first", 7⟩] ∧
    (drainStep .followup ⟨[runSecond], [⟨"first", 7⟩]⟩ true).1.overflow =
      [] ∧
    overflowText [⟨"first", 7⟩] =
      "[Queue overflow] Dropped 1 message due to cap.\n- first" := by
  have h := overflow_attached_and_cleared_on_success
    ⟨[runSecond], [⟨"first", 7⟩]⟩ .followup
    ⟨runSecond, [runSecond], false⟩ [] (by decide) rfl
  exact ⟨h.1, h.2.1, h.2.2, by decide⟩

theorem drain_single_flight_witness :
    schedStep ⟨1, false⟩ .trigger = (⟨1, true⟩, false) ∧
    schedStep ⟨1, true⟩ (.settle true) = (⟨1, false⟩, true) ∧
    schedStep ⟨1, false⟩ (.settle false) = (⟨1, false⟩, true) ∧
    schedStep ⟨1, false⟩ (.settle true) = (⟨0, false⟩, false) :=
  ⟨drain_single_flight_and_rearm.2.1 ⟨1, false⟩ rfl,
   drain_single_flight_and_rearm.2.2.1 ⟨1, true⟩ true rfl rfl,
   drain_single_flight_and_rearm.2.2.2.1 ⟨1, false⟩ rfl rfl,
   drain_single_flight_and_rearm.2.2.2.2.1 ⟨1, false⟩ rfl rfl⟩

theorem reaction_non_message_ignored_witness :
    reactionAddedHandler trivialSlackEnv false
      ⟨none, some "U1", some "eyes", none⟩ = .ok ([], none) ∧
    reactionRemovedHandler trivialSlackEnv false
      ⟨none, some "U1", some "eyes", none⟩ = .ok ([], none) :=
  reaction_non_message_ignored trivialSlackEnv false
    ⟨none, some "U1", some "eyes", none⟩ (Or.inl rfl)

end OpenClaw
